import Mathlib

/-!
# Verification of the video2calibration sampling/calibration pipeline

Shallow embedding of `src/calibrate.py` (`main`).  The script walks a frame
source (a video with a frame stride, or an ordered image list), offers selected
frames to the chessboard corner detector, accumulates object-point/image-point
correspondences for the frames on which the pattern was found, optionally
pickles the correspondences, and finally invokes the calibration solver.

The corner detector (`cv2.findChessboardCorners` + `cv2.cornerSubPix`) and the
solver (`cv2.calibrateCamera`) are external library calls; the embedding takes
the detector as an oracle function and models the solver's documented guard
from the spec.  Pattern points are exact small integers stored in float32 by
the script, so they are embedded as natural-number triples.
-/

namespace Video2Calibration

/-- A detected (sub-pixel) image corner.  The script never computes on the
coordinates, it only stores what the detector returned. -/
abbrev ImagePoint := Int × Int

/-- A 3D object-space pattern point `(col, row, 0)`. -/
abbrev Point3 := Nat × Nat × Nat

/-- A grayscale frame: its dimensions, plus an abstract content tag that the
detector oracle can inspect. -/
structure Frame where
  width : Nat
  height : Nat
  content : Nat
  deriving DecidableEq, Repr

/-- Result of `cv2.findChessboardCorners` (+ `cv2.cornerSubPix` refinement):
a found flag and the ordered corner list. -/
structure DetectionResult where
  found : Bool
  corners : List ImagePoint
  deriving DecidableEq, Repr

/-- The frame source: either a glob of image files (every item offered in
order) or a `cv2.VideoCapture` read with a frame stride. -/
inductive Source where
  | imageList (frames : List Frame)
  | video (frames : List Frame) (framestep : Nat)
  deriving DecidableEq, Repr

/-- Error kinds named by the spec (§7).  The script itself only ever raises
`insufficientViews` through the solver; the other two constructors exist so
that their absence from every run is expressible. -/
inductive CalibError where
  | invalidPatternConfig
  | dimensionMismatch
  | insufficientViews (count : Nat)
  deriving DecidableEq, Repr

/-- The mutable state of the sampling loop of `main`:
`obj_points`, `img_points`, `h, w`, `used_frames`, plus the trace of frames
offered to the detector (the frames reaching the
`Searching for chessboard in frame ...` / `findChessboardCorners` call). -/
structure LoopState where
  obj_points : List (List Point3)
  img_points : List (List ImagePoint)
  w : Nat
  h : Nat
  used_frames : Nat
  offered : List (Nat × Frame)
  deriving DecidableEq, Repr

/-- The initial state: empty accumulators, `h, w = 0, 0`, `used_frames = 0`. -/
def initState : LoopState :=
  { obj_points := [], img_points := [], w := 0, h := 0, used_frames := 0,
    offered := [] }

/-- `pattern_points`: embedding of
`pattern_points = np.zeros((np.prod(pattern_size), 3), np.float32);`
`pattern_points[:, :2] = np.indices(pattern_size).T.reshape(-1, 2)`.
For `pattern_size = (cols, rows)`, `np.indices((cols, rows)).T` has shape
`(rows, cols, 2)` with entry `[row][col] = (col, row)`, so the row-major
flatten yields, for `row` in `[0,rows)` and then `col` in `[0,cols)`, the
points `(col, row, 0)`. -/
def pattern_points (cols rows : Nat) : List Point3 :=
  (List.range rows).flatMap (fun row =>
    (List.range cols).map (fun col => (col, row, (0 : Nat))))

/-- Index-pair a frame list starting at index `i` (the script's `frame`
counter). -/
def indexFrom (i : Nat) : List Frame → List (Nat × Frame)
  | [] => []
  | f :: fs => (i, f) :: indexFrom (i + 1) fs

/-- The (index, frame) pairs that reach the detector, in order.  An image list
offers every item; a video offers exactly the read frames whose index `frame`
satisfies `frame % framestep == 0` (the script `continue`s on the others). -/
def offeredFrames : Source → List (Nat × Frame)
  | .imageList fs => indexFrom 0 fs
  | .video fs step => (indexFrom 0 fs).filter (fun p => p.1 % step = 0)

/-- One processed frame before the found/not-found branch: the script sets
`h, w = img.shape[:2]` and calls the detector (recorded in `offered`). -/
def examine (st : LoopState) (i : Nat) (f : Frame) : LoopState :=
  { st with w := f.width, h := f.height, offered := st.offered ++ [(i, f)] }

/-- The found-branch of the loop body: `used_frames += 1;`
`img_points.append(corners.reshape(1, -1, 2));`
`obj_points.append(pattern_points.reshape(1, -1, 3))`. -/
def acceptView (st : LoopState) (pat : List Point3) (corners : List ImagePoint) :
    LoopState :=
  { st with used_frames := st.used_frames + 1,
            img_points := st.img_points ++ [corners],
            obj_points := st.obj_points ++ [pat] }

/-- The sampling `while True:` loop of `main`, run over the frames the source
offers to the detector.  After an accepted view the script breaks out of the
loop when `max_frames is not None and used_frames >= max_frames`. -/
def runLoop (detect : Frame → DetectionResult) (pat : List Point3)
    (maxFrames : Option Nat) : List (Nat × Frame) → LoopState → LoopState
  | [], st => st
  | (i, f) :: rest, st =>
      let st' := examine st i f
      let r := detect f
      if r.found then
        let st'' := acceptView st' pat r.corners
        match maxFrames with
        | some m =>
            if m ≤ st''.used_frames then st''
            else runLoop detect pat maxFrames rest st''
        | none => runLoop detect pat maxFrames rest st''
      else runLoop detect pat maxFrames rest st'

/-- The in-memory correspondence set handed to `cv2.calibrateCamera`:
`(obj_points, img_points, (w, h))`. -/
structure CorrespondenceSet where
  obj_points : List (List Point3)
  img_points : List (List ImagePoint)
  w : Nat
  h : Nat
  deriving DecidableEq, Repr

/-- One `pickle.dump` chunk of the optional corners cache file. -/
inductive Pickled where
  | imgPts (l : List (List ImagePoint))
  | objPts (l : List (List Point3))
  | size (wh : Nat × Nat)
  deriving DecidableEq, Repr

/-- The corners cache written when `corners_f` is configured:
`pickle.dump(img_points, fw); pickle.dump(obj_points, fw);`
`pickle.dump((w, h), fw)` — three chunks in that order. -/
def dumpCorners (st : LoopState) : List Pickled :=
  [Pickled.imgPts st.img_points, Pickled.objPts st.obj_points,
   Pickled.size (st.w, st.h)]

/-- Modelled from the spec: the calibration solver is `cv2.calibrateCamera`,
an external library call whose body is not under `src/`.  Per spec §4.4 it
requires `correspondenceSet.count() >= 3` and fails with an InsufficientViews
error carrying the accepted view count otherwise; the numeric estimation on
success is out of scope here. -/
def solve (cs : CorrespondenceSet) : Except CalibError Unit :=
  if 3 ≤ cs.obj_points.length then Except.ok ()
  else Except.error (CalibError.insufficientViews cs.obj_points.length)

/-- Run configuration: the subset of `main`'s keyword arguments the core loop
reads.  `cornersF` records whether a corners cache path was given. -/
structure Config where
  patternSize : Nat × Nat
  maxFrames : Option Nat
  cornersF : Bool
  deriving DecidableEq, Repr

/-- Outcome of one run of `main`: the final loop state, the optional corners
cache contents, and the solve step's result. -/
structure RunResult where
  state : LoopState
  cornersFile : Option (List Pickled)
  solved : Except CalibError Unit
  deriving Repr

/-- The whole of `main` (up to the solver call): build `pattern_points`, run
the sampling loop over the source, optionally dump the corners cache, then
call the solver on the accumulated set together with `(w, h)`. -/
def mainRun (cfg : Config) (detect : Frame → DetectionResult) (src : Source) :
    RunResult :=
  let pat := pattern_points cfg.patternSize.1 cfg.patternSize.2
  let st := runLoop detect pat cfg.maxFrames (offeredFrames src) initState
  let file := if cfg.cornersF then some (dumpCorners st) else none
  let cs : CorrespondenceSet :=
    { obj_points := st.obj_points, img_points := st.img_points,
      w := st.w, h := st.h }
  { state := st, cornersFile := file, solved := solve cs }

/-- The correspondence set the solver receives in `mainRun`. -/
def solverInput (cfg : Config) (detect : Frame → DetectionResult)
    (src : Source) : CorrespondenceSet :=
  let st := (mainRun cfg detect src).state
  { obj_points := st.obj_points, img_points := st.img_points,
    w := st.w, h := st.h }

/-- The loop invariant over the accumulators: the two lists stay in lockstep
with `used_frames`, every object-point entry is the fixed pattern, and every
image-point entry has the detector's corner count. -/
def LoopInv (pat : List Point3) (cr : Nat) (st : LoopState) : Prop :=
  st.obj_points.length = st.used_frames ∧
  st.img_points.length = st.used_frames ∧
  (∀ e ∈ st.obj_points, e = pat) ∧
  (∀ e ∈ st.img_points, e.length = cr)

/-! ## Concrete fixtures (detector oracles, frames, configurations) -/

/-- A detector oracle that never finds the pattern. -/
def detNever : Frame → DetectionResult :=
  fun _ => { found := false, corners := [] }

/-- A detector oracle that always reports the given corner list. -/
def detConst (cs : List ImagePoint) : Frame → DetectionResult :=
  fun _ => { found := true, corners := cs }

/-- Six corners, the full lattice of a 3×2 pattern. -/
def sixCorners : List ImagePoint :=
  [(10, 10), (20, 10), (30, 10), (10, 20), (20, 20), (30, 20)]

/-- A 640×480 frame. -/
def frameA : Frame := { width := 640, height := 480, content := 0 }

/-- A 320×240 frame: same source, different resolution. -/
def frameB : Frame := { width := 320, height := 240, content := 1 }

/-- A 1024×768 frame: a third resolution. -/
def frameC : Frame := { width := 1024, height := 768, content := 2 }

/-- The script's default configuration: 7×4 pattern, no max-frames cap, no
corners cache. -/
def defaultCfg : Config :=
  { patternSize := (7, 4), maxFrames := none, cornersF := false }

/-- A degenerate 1×1 pattern configuration. -/
def c5cfg : Config :=
  { patternSize := (1, 1), maxFrames := none, cornersF := false }

/-- A configuration with `max_frames = 0`. -/
def c7cfg : Config :=
  { patternSize := (7, 4), maxFrames := some 0, cornersF := false }

/-- A configuration with `max_frames = 1`. -/
def c7cfgW : Config :=
  { patternSize := (7, 4), maxFrames := some 1, cornersF := false }

/-- A configuration with a corners cache path set. -/
def c8cfg : Config :=
  { patternSize := (7, 4), maxFrames := none, cornersF := true }

/-- A 3×2 pattern configuration matching `sixCorners`. -/
def c9cfg : Config :=
  { patternSize := (3, 2), maxFrames := none, cornersF := false }

/-! ## Helper lemmas about the loop -/

theorem runLoop_nil (detect : Frame → DetectionResult) (pat : List Point3)
    (mf : Option Nat) (st : LoopState) :
    runLoop detect pat mf [] st = st := rfl

theorem runLoop_cons_notFound (detect : Frame → DetectionResult)
    (pat : List Point3) (mf : Option Nat) (i : Nat) (f : Frame)
    (rest : List (Nat × Frame)) (st : LoopState)
    (h : (detect f).found = false) :
    runLoop detect pat mf ((i, f) :: rest) st =
      runLoop detect pat mf rest (examine st i f) := by
  simp [runLoop, h]

theorem runLoop_cons_found_none (detect : Frame → DetectionResult)
    (pat : List Point3) (i : Nat) (f : Frame)
    (rest : List (Nat × Frame)) (st : LoopState)
    (h : (detect f).found = true) :
    runLoop detect pat none ((i, f) :: rest) st =
      runLoop detect pat none rest
        (acceptView (examine st i f) pat (detect f).corners) := by
  simp [runLoop, h]

theorem runLoop_cons_found_stop (detect : Frame → DetectionResult)
    (pat : List Point3) (m : Nat) (i : Nat) (f : Frame)
    (rest : List (Nat × Frame)) (st : LoopState)
    (h : (detect f).found = true) (hm : m ≤ st.used_frames + 1) :
    runLoop detect pat (some m) ((i, f) :: rest) st =
      acceptView (examine st i f) pat (detect f).corners := by
  simp [runLoop, h, acceptView, examine, hm]

theorem runLoop_cons_found_cont (detect : Frame → DetectionResult)
    (pat : List Point3) (m : Nat) (i : Nat) (f : Frame)
    (rest : List (Nat × Frame)) (st : LoopState)
    (h : (detect f).found = true) (hm : st.used_frames + 1 < m) :
    runLoop detect pat (some m) ((i, f) :: rest) st =
      runLoop detect pat (some m) rest
        (acceptView (examine st i f) pat (detect f).corners) := by
  have hm' : ¬ m ≤ st.used_frames + 1 := Nat.not_le.mpr hm
  simp [runLoop, h, acceptView, examine, hm']

theorem runLoop_offered_none (detect : Frame → DetectionResult)
    (pat : List Point3) :
    ∀ (pairs : List (Nat × Frame)) (st : LoopState),
      (runLoop detect pat none pairs st).offered = st.offered ++ pairs := by
  intro pairs
  induction pairs with
  | nil => intro st; simp [runLoop]
  | cons p rest ih =>
      intro st
      obtain ⟨i, f⟩ := p
      by_cases h : (detect f).found = true
      · rw [runLoop_cons_found_none detect pat i f rest st h, ih]
        simp [acceptView, examine]
      · rw [runLoop_cons_notFound detect pat none i f rest st
             (Bool.not_eq_true _ ▸ h), ih]
        simp [examine]

theorem runLoop_used_le (detect : Frame → DetectionResult)
    (pat : List Point3) (m : Nat) :
    ∀ (pairs : List (Nat × Frame)) (st : LoopState),
      st.used_frames < m →
      (runLoop detect pat (some m) pairs st).used_frames ≤ m := by
  intro pairs
  induction pairs with
  | nil => intro st hst; simpa [runLoop] using Nat.le_of_lt hst
  | cons p rest ih =>
      intro st hst
      obtain ⟨i, f⟩ := p
      by_cases h : (detect f).found = true
      · by_cases hm : m ≤ st.used_frames + 1
        · rw [runLoop_cons_found_stop detect pat m i f rest st h hm]
          simpa [acceptView, examine] using Nat.succ_le_of_lt hst
        · have hm' : st.used_frames + 1 < m := Nat.lt_of_not_le hm
          rw [runLoop_cons_found_cont detect pat m i f rest st h hm']
          exact ih _ (by simpa [acceptView, examine] using hm')
      · rw [runLoop_cons_notFound detect pat (some m) i f rest st
             (Bool.not_eq_true _ ▸ h)]
        exact ih _ (by simpa [examine] using hst)

theorem runLoop_offered_all_of_lt (detect : Frame → DetectionResult)
    (pat : List Point3) (m : Nat) :
    ∀ (pairs : List (Nat × Frame)) (st : LoopState),
      (runLoop detect pat (some m) pairs st).used_frames < m →
      (runLoop detect pat (some m) pairs st).offered = st.offered ++ pairs := by
  intro pairs
  induction pairs with
  | nil => intro st _; simp [runLoop]
  | cons p rest ih =>
      intro st hlt
      obtain ⟨i, f⟩ := p
      by_cases h : (detect f).found = true
      · by_cases hm : m ≤ st.used_frames + 1
        · exfalso
          rw [runLoop_cons_found_stop detect pat m i f rest st h hm] at hlt
          simp only [acceptView, examine] at hlt
          exact Nat.not_le.mpr hlt hm
        · have hm' : st.used_frames + 1 < m := Nat.lt_of_not_le hm
          rw [runLoop_cons_found_cont detect pat m i f rest st h hm'] at hlt ⊢
          rw [ih _ hlt]
          simp [acceptView, examine]
      · rw [runLoop_cons_notFound detect pat (some m) i f rest st
             (Bool.not_eq_true _ ▸ h)] at hlt ⊢
        rw [ih _ hlt]
        simp [examine]

theorem loopInv_initState (pat : List Point3) (cr : Nat) :
    LoopInv pat cr initState := by
  simp [LoopInv, initState]

theorem loopInv_examine (pat : List Point3) (cr : Nat) (st : LoopState)
    (i : Nat) (f : Frame) (h : LoopInv pat cr st) :
    LoopInv pat cr (examine st i f) := by
  simpa [LoopInv, examine] using h

theorem loopInv_acceptView (pat : List Point3) (cr : Nat) (st : LoopState)
    (corners : List ImagePoint) (hc : corners.length = cr)
    (h : LoopInv pat cr st) :
    LoopInv pat cr (acceptView st pat corners) := by
  obtain ⟨h1, h2, h3, h4⟩ := h
  refine ⟨?_, ?_, ?_, ?_⟩ <;> simp [acceptView, h1, h2, hc]
  · intro e he
    rcases he with he | he
    · exact h3 e he
    · exact he
  · intro e he
    rcases he with he | he
    · exact h4 e he
    · simp [he, hc]

theorem runLoop_inv (detect : Frame → DetectionResult) (pat : List Point3)
    (cr : Nat) (mf : Option Nat)
    (hdet : ∀ f, (detect f).found = true → (detect f).corners.length = cr) :
    ∀ (pairs : List (Nat × Frame)) (st : LoopState),
      LoopInv pat cr st → LoopInv pat cr (runLoop detect pat mf pairs st) := by
  intro pairs
  induction pairs with
  | nil => intro st h; simpa [runLoop] using h
  | cons p rest ih =>
      intro st h
      obtain ⟨i, f⟩ := p
      by_cases hf : (detect f).found = true
      · have hacc : LoopInv pat cr
            (acceptView (examine st i f) pat (detect f).corners) :=
          loopInv_acceptView pat cr _ _ (hdet f hf)
            (loopInv_examine pat cr st i f h)
        cases mf with
        | none =>
            rw [runLoop_cons_found_none detect pat i f rest st hf]
            exact ih _ hacc
        | some m =>
            by_cases hm : m ≤ st.used_frames + 1
            · rw [runLoop_cons_found_stop detect pat m i f rest st hf hm]
              exact hacc
            · rw [runLoop_cons_found_cont detect pat m i f rest st hf
                   (Nat.lt_of_not_le hm)]
              exact ih _ hacc
      · rw [runLoop_cons_notFound detect pat mf i f rest st
             (Bool.not_eq_true _ ▸ hf)]
        exact ih _ (loopInv_examine pat cr st i f h)

/-- Without a max-frames cap, the accepted-view count grows by exactly the
number of offered frames on which the detector reports `found`. -/
theorem runLoop_used_countP (detect : Frame → DetectionResult)
    (pat : List Point3) :
    ∀ (pairs : List (Nat × Frame)) (st : LoopState),
      (runLoop detect pat none pairs st).used_frames =
        st.used_frames + pairs.countP (fun p => (detect p.2).found) := by
  intro pairs
  induction pairs with
  | nil => intro st; simp [runLoop]
  | cons p rest ih =>
      intro st
      obtain ⟨i, f⟩ := p
      by_cases hf : (detect f).found = true
      · rw [runLoop_cons_found_none detect pat i f rest st hf, ih]
        simp [acceptView, examine, List.countP_cons, hf]
        omega
      · rw [runLoop_cons_notFound detect pat none i f rest st
             (Bool.not_eq_true _ ▸ hf), ih]
        simp [examine, List.countP_cons, hf]

/-- The dimensions the loop leaves behind are those of the last frame offered
to the detector — or the ones it started with when it offered none. -/
theorem runLoop_wh (detect : Frame → DetectionResult) (pat : List Point3)
    (mf : Option Nat) :
    ∀ (pairs : List (Nat × Frame)) (st : LoopState),
      ((runLoop detect pat mf pairs st).w = st.w ∧
       (runLoop detect pat mf pairs st).h = st.h ∧
       (runLoop detect pat mf pairs st).offered = st.offered) ∨
      (∃ p, (runLoop detect pat mf pairs st).offered.getLast? = some p ∧
        (runLoop detect pat mf pairs st).w = p.2.width ∧
        (runLoop detect pat mf pairs st).h = p.2.height) := by
  intro pairs
  induction pairs with
  | nil => intro st; left; simp [runLoop]
  | cons p rest ih =>
      intro st
      obtain ⟨i, f⟩ := p
      have hlast : ∀ l : List (Nat × Frame),
          (l ++ [(i, f)]).getLast? = some (i, f) := by
        intro l; simp
      by_cases hf : (detect f).found = true
      · have key : ∀ st₀ : LoopState,
            st₀.w = f.width → st₀.h = f.height →
            st₀.offered = st.offered ++ [(i, f)] →
            ∀ r : LoopState,
              ((r.w = st₀.w ∧ r.h = st₀.h ∧ r.offered = st₀.offered) ∨
               (∃ p, r.offered.getLast? = some p ∧
                 r.w = p.2.width ∧ r.h = p.2.height)) →
              ((r.w = st.w ∧ r.h = st.h ∧ r.offered = st.offered) ∨
               (∃ p, r.offered.getLast? = some p ∧
                 r.w = p.2.width ∧ r.h = p.2.height)) := by
          intro st₀ hw hh ho r hr
          rcases hr with ⟨hrw, hrh, hro⟩ | hr
          · right
            exact ⟨(i, f), by rw [hro, ho]; exact hlast _,
              by rw [hrw, hw], by rw [hrh, hh]⟩
          · right; exact hr
        cases mf with
        | none =>
            rw [runLoop_cons_found_none detect pat i f rest st hf]
            exact key _ rfl rfl (by simp [acceptView, examine]) _ (ih _)
        | some m =>
            by_cases hm : m ≤ st.used_frames + 1
            · rw [runLoop_cons_found_stop detect pat m i f rest st hf hm]
              right
              exact ⟨(i, f), by simp [acceptView, examine], by
                simp [acceptView, examine], by simp [acceptView, examine]⟩
            · rw [runLoop_cons_found_cont detect pat m i f rest st hf
                   (Nat.lt_of_not_le hm)]
              exact key _ rfl rfl (by simp [acceptView, examine]) _ (ih _)
      · rw [runLoop_cons_notFound detect pat mf i f rest st
             (Bool.not_eq_true _ ▸ hf)]
        have key : ∀ r : LoopState,
            ((r.w = (examine st i f).w ∧ r.h = (examine st i f).h ∧
              r.offered = (examine st i f).offered) ∨
             (∃ p, r.offered.getLast? = some p ∧
               r.w = p.2.width ∧ r.h = p.2.height)) →
            ((r.w = st.w ∧ r.h = st.h ∧ r.offered = st.offered) ∨
             (∃ p, r.offered.getLast? = some p ∧
               r.w = p.2.width ∧ r.h = p.2.height)) := by
          intro r hr
          rcases hr with ⟨hrw, hrh, hro⟩ | hr
          · right
            refine ⟨(i, f), ?_, ?_, ?_⟩
            · rw [hro]; simp [examine]
            · simpa [examine] using hrw
            · simpa [examine] using hrh
          · right; exact hr
        exact key _ (ih _)

theorem indexFrom_map_fst (fs : List Frame) :
    ∀ i : Nat, (indexFrom i fs).map Prod.fst = List.range' i fs.length := by
  induction fs with
  | nil => intro i; simp [indexFrom]
  | cons f fs ih => intro i; simp [indexFrom, List.range', ih]

theorem map_fst_filter_fst (q : Nat → Bool) (l : List (Nat × Frame)) :
    (l.filter (fun p => q p.1)).map Prod.fst = (l.map Prod.fst).filter q := by
  induction l with
  | nil => simp
  | cons p rest ih =>
      by_cases hq : q p.1 = true <;> simp [List.filter, hq, ih]

theorem offeredFrames_video_map_fst (fs : List Frame) (step : Nat) :
    (offeredFrames (Source.video fs step)).map Prod.fst =
      (List.range fs.length).filter (fun i => i % step = 0) := by
  have h := map_fst_filter_fst (fun i => decide (i % step = 0)) (indexFrom 0 fs)
  rw [indexFrom_map_fst] at h
  rw [List.range_eq_range']
  exact h

theorem offeredFrames_imageList_map_fst (fs : List Frame) :
    (offeredFrames (Source.imageList fs)).map Prod.fst =
      List.range fs.length := by
  simp [offeredFrames, indexFrom_map_fst, List.range_eq_range']

/-- The raster form of the object points: entry `n` is
`(n % cols, n / cols, 0)` — column fastest, then row, the order in which the
detector reports the inner corners. -/
theorem pattern_points_raster (cols rows : Nat) :
    pattern_points cols rows =
      (List.range (rows * cols)).map (fun n => ((n % cols, n / cols, 0) : Point3)) := by
  induction rows with
  | zero => simp [pattern_points]
  | succ r ih =>
      rw [pattern_points, List.range_succ, List.flatMap_append,
          ← pattern_points, ih, Nat.succ_mul, List.range_add, List.map_append]
      congr 1
      have h2 : ([r].flatMap fun row =>
            List.map (fun col => ((col, row, 0) : Point3)) (List.range cols)) =
          (List.range cols).map (fun col => ((col, r, 0) : Point3)) := by
        simp
      rw [h2, List.map_map]
      refine List.map_congr_left ?_
      intro col hcol
      have hc : col < cols := List.mem_range.mp hcol
      have hcpos : 0 < cols := Nat.lt_of_le_of_lt (Nat.zero_le col) hc
      have hmod : (r * cols + col) % cols = col := by
        rw [Nat.mul_comm r cols, Nat.mul_add_mod, Nat.mod_eq_of_lt hc]
      have hdiv : (r * cols + col) / cols = r := by
        rw [Nat.mul_comm r cols, Nat.mul_add_div hcpos,
            Nat.div_eq_of_lt hc, Nat.add_zero]
      simp [Function.comp, hmod, hdiv]

theorem pattern_points_length (cols rows : Nat) :
    (pattern_points cols rows).length = cols * rows := by
  rw [pattern_points_raster, List.length_map, List.length_range,
      Nat.mul_comm]

theorem pattern_points_z_zero (cols rows : Nat) :
    ∀ p ∈ pattern_points cols rows, p.2.2 = 0 := by
  intro p hp
  rw [pattern_points_raster] at hp
  obtain ⟨n, _, rfl⟩ := List.mem_map.mp hp
  rfl

/-- The accumulator lengths track `used_frames` regardless of the detector. -/
theorem runLoop_lengths (detect : Frame → DetectionResult) (pat : List Point3)
    (mf : Option Nat) :
    ∀ (pairs : List (Nat × Frame)) (st : LoopState),
      st.obj_points.length = st.used_frames →
      st.img_points.length = st.used_frames →
      (runLoop detect pat mf pairs st).obj_points.length =
          (runLoop detect pat mf pairs st).used_frames ∧
        (runLoop detect pat mf pairs st).img_points.length =
          (runLoop detect pat mf pairs st).used_frames := by
  intro pairs
  induction pairs with
  | nil => intro st h1 h2; simp [runLoop, h1, h2]
  | cons p rest ih =>
      intro st h1 h2
      obtain ⟨i, f⟩ := p
      by_cases hf : (detect f).found = true
      · cases mf with
        | none =>
            rw [runLoop_cons_found_none detect pat i f rest st hf]
            exact ih _ (by simp [acceptView, examine, h1])
              (by simp [acceptView, examine, h2])
        | some m =>
            by_cases hm : m ≤ st.used_frames + 1
            · rw [runLoop_cons_found_stop detect pat m i f rest st hf hm]
              constructor <;> simp [acceptView, examine, h1, h2]
            · rw [runLoop_cons_found_cont detect pat m i f rest st hf
                   (Nat.lt_of_not_le hm)]
              exact ih _ (by simp [acceptView, examine, h1])
                (by simp [acceptView, examine, h2])
      · rw [runLoop_cons_notFound detect pat mf i f rest st
             (Bool.not_eq_true _ ▸ hf)]
        exact ih _ (by simp [examine, h1]) (by simp [examine, h2])

/-- Every object-point entry the loop ever appends is the fixed pattern. -/
theorem runLoop_obj_entries (detect : Frame → DetectionResult)
    (pat : List Point3) (mf : Option Nat) :
    ∀ (pairs : List (Nat × Frame)) (st : LoopState),
      (∀ e ∈ st.obj_points, e = pat) →
      ∀ e ∈ (runLoop detect pat mf pairs st).obj_points, e = pat := by
  intro pairs
  induction pairs with
  | nil => intro st h; simpa [runLoop] using h
  | cons p rest ih =>
      intro st h
      obtain ⟨i, f⟩ := p
      have hstep : ∀ e ∈ (acceptView (examine st i f) pat
          (detect f).corners).obj_points, e = pat := by
        intro e he
        simp only [acceptView, examine, List.mem_append,
          List.mem_singleton] at he
        rcases he with he | he
        · exact h e he
        · exact he
      by_cases hf : (detect f).found = true
      · cases mf with
        | none =>
            rw [runLoop_cons_found_none detect pat i f rest st hf]
            exact ih _ hstep
        | some m =>
            by_cases hm : m ≤ st.used_frames + 1
            · rw [runLoop_cons_found_stop detect pat m i f rest st hf hm]
              exact hstep
            · rw [runLoop_cons_found_cont detect pat m i f rest st hf
                   (Nat.lt_of_not_le hm)]
              exact ih _ hstep
      · rw [runLoop_cons_notFound detect pat mf i f rest st
             (Bool.not_eq_true _ ▸ hf)]
        exact ih _ (by simpa [examine] using h)

/-- A run's accumulator lengths at the end of the loop equal the accepted
count. -/
theorem mainRun_obj_length (cfg : Config) (detect : Frame → DetectionResult)
    (src : Source) :
    (mainRun cfg detect src).state.obj_points.length =
      (mainRun cfg detect src).state.used_frames :=
  (runLoop_lengths detect
    (pattern_points cfg.patternSize.1 cfg.patternSize.2) cfg.maxFrames
    (offeredFrames src) initState (by simp [initState])
    (by simp [initState])).1

/-! ## The claims -/

/-- C1: if fewer than 3 views have been accepted when the solver is invoked,
the solve step fails with an InsufficientViews error carrying the accepted
view count, instead of attempting calibration; this covers 0, 1 and 2
accepted views. -/
theorem c1_insufficient_views_guard (cfg : Config)
    (detect : Frame → DetectionResult) (src : Source)
    (h : (mainRun cfg detect src).state.used_frames < 3) :
    (mainRun cfg detect src).solved =
      Except.error
        (CalibError.insufficientViews
          (mainRun cfg detect src).state.used_frames) := by
  have hlen := mainRun_obj_length cfg detect src
  have hsolved : (mainRun cfg detect src).solved =
      solve { obj_points := (mainRun cfg detect src).state.obj_points,
              img_points := (mainRun cfg detect src).state.img_points,
              w := (mainRun cfg detect src).state.w,
              h := (mainRun cfg detect src).state.h } := rfl
  have hnot : ¬ 3 ≤ (mainRun cfg detect src).state.obj_points.length := by
    rw [hlen]; omega
  rw [hsolved, solve, if_neg hnot, hlen]

/-- C1 witness: the empty image list accepts 0 views and the solve step
fails with `InsufficientViews 0`. -/
theorem c1_insufficient_views_guard_witness :
    (mainRun defaultCfg detNever (Source.imageList [])).state.used_frames < 3 ∧
      (mainRun defaultCfg detNever (Source.imageList [])).solved =
        Except.error
          (CalibError.insufficientViews
            (mainRun defaultCfg detNever
              (Source.imageList [])).state.used_frames) :=
  ⟨by decide, c1_insufficient_views_guard defaultCfg detNever
    (Source.imageList []) (by decide)⟩

/-- C2 counterexample: three frames with three different resolutions are all
accepted — the second accept does not fail with DimensionMismatch — and the
run reaches the solver successfully. -/
theorem c2_dimension_mismatch_counterexample :
    frameA.width ≠ frameB.width ∧
      (mainRun defaultCfg (detConst sixCorners)
          (Source.imageList [frameA, frameB, frameC])).state.offered =
        [(0, frameA), (1, frameB), (2, frameC)] ∧
      (mainRun defaultCfg (detConst sixCorners)
          (Source.imageList [frameA, frameB, frameC])).state.used_frames = 3 ∧
      (mainRun defaultCfg (detConst sixCorners)
          (Source.imageList [frameA, frameB, frameC])).solved =
        Except.ok () :=
  ⟨by decide, by decide, by decide, rfl⟩

/-- C2 amended: the loop performs no dimension check at all — no run ever
fails with DimensionMismatch, and (without a max-frames cap) every offered
frame on which detection succeeds is accepted, whatever its resolution; the
stored `(w, h)` is simply overwritten by each examined frame. -/
theorem c2_no_dimension_check (cfg : Config)
    (detect : Frame → DetectionResult) (src : Source) :
    (mainRun cfg detect src).solved ≠
        Except.error CalibError.dimensionMismatch ∧
      (cfg.maxFrames = none →
        (mainRun cfg detect src).state.used_frames =
          (offeredFrames src).countP (fun p => (detect p.2).found)) := by
  constructor
  · have hsolved : (mainRun cfg detect src).solved =
        solve { obj_points := (mainRun cfg detect src).state.obj_points,
                img_points := (mainRun cfg detect src).state.img_points,
                w := (mainRun cfg detect src).state.w,
                h := (mainRun cfg detect src).state.h } := rfl
    rw [hsolved, solve]
    split <;> simp
  · intro hmf
    have hst : (mainRun cfg detect src).state =
        runLoop detect (pattern_points cfg.patternSize.1 cfg.patternSize.2)
          cfg.maxFrames (offeredFrames src) initState := rfl
    rw [hst, hmf, runLoop_used_countP]
    simp [initState]

/-- C2 amended, witness. -/
theorem c2_no_dimension_check_witness :
    (mainRun defaultCfg detNever (Source.imageList [frameA])).solved ≠
        Except.error CalibError.dimensionMismatch ∧
      (mainRun defaultCfg detNever
          (Source.imageList [frameA])).state.used_frames =
        (offeredFrames (Source.imageList [frameA])).countP
          (fun p => (detNever p.2).found) :=
  ⟨(c2_no_dimension_check defaultCfg detNever (Source.imageList [frameA])).1,
   (c2_no_dimension_check defaultCfg detNever (Source.imageList [frameA])).2
     rfl⟩

/-- C3: for a `(cols, rows)` pattern with both dimensions at least 2, the
object-point sequence has length `cols * rows`, is exactly the raster
sequence whose entry `n` is `(n % cols, n / cols, 0)` (columns fastest — the
detector's corner order), has `z = 0` everywhere, and every accepted view of
any run appends this same fixed sequence. -/
theorem c3_object_points (cols rows : Nat) (hc : 2 ≤ cols) (hr : 2 ≤ rows) :
    (pattern_points cols rows).length = cols * rows ∧
      pattern_points cols rows =
        (List.range (rows * cols)).map
          (fun n => ((n % cols, n / cols, 0) : Point3)) ∧
      (∀ p ∈ pattern_points cols rows, p.2.2 = 0) ∧
      (∀ (cfg : Config) (detect : Frame → DetectionResult) (src : Source),
        cfg.patternSize = (cols, rows) →
        ∀ e ∈ (mainRun cfg detect src).state.obj_points,
          e = pattern_points cols rows) := by
  refine ⟨pattern_points_length cols rows, pattern_points_raster cols rows,
    pattern_points_z_zero cols rows, ?_⟩
  intro cfg detect src hps e he
  obtain ⟨ps, mf, cf⟩ := cfg
  simp only at hps
  subst hps
  exact runLoop_obj_entries detect (pattern_points cols rows) mf
    (offeredFrames src) initState (by simp [initState]) e he

/-- C3 witness at the default 7×4 pattern. -/
theorem c3_object_points_witness :
    2 ≤ 7 ∧ 2 ≤ 4 ∧
      ((pattern_points 7 4).length = 7 * 4 ∧
        pattern_points 7 4 =
          (List.range (4 * 7)).map
            (fun n => ((n % 7, n / 7, 0) : Point3)) ∧
        (∀ p ∈ pattern_points 7 4, p.2.2 = 0) ∧
        (∀ (cfg : Config) (detect : Frame → DetectionResult) (src : Source),
          cfg.patternSize = (7, 4) →
          ∀ e ∈ (mainRun cfg detect src).state.obj_points,
            e = pattern_points 7 4)) :=
  ⟨by decide, by decide, c3_object_points 7 4 (by decide) (by decide)⟩

/-- C4: with no max-frames cap, a video source with stride `n > 0` offers to
the detector exactly the frames whose index is a multiple of `n`, regardless
of detection outcome, while an image-list source offers every item in
order. -/
theorem c4_frame_stride (cfg : Config) (detect : Frame → DetectionResult)
    (frames : List Frame) (n : Nat) (hmf : cfg.maxFrames = none)
    (hn : 0 < n) :
    ((mainRun cfg detect (Source.video frames n)).state.offered.map
        Prod.fst =
      (List.range frames.length).filter (fun i => i % n = 0)) ∧
    ((mainRun cfg detect (Source.imageList frames)).state.offered.map
        Prod.fst =
      List.range frames.length) := by
  constructor
  · have hst : (mainRun cfg detect (Source.video frames n)).state =
        runLoop detect (pattern_points cfg.patternSize.1 cfg.patternSize.2)
          cfg.maxFrames (offeredFrames (Source.video frames n)) initState :=
      rfl
    rw [hst, hmf, runLoop_offered_none]
    simpa [initState] using offeredFrames_video_map_fst frames n
  · have hst : (mainRun cfg detect (Source.imageList frames)).state =
        runLoop detect (pattern_points cfg.patternSize.1 cfg.patternSize.2)
          cfg.maxFrames (offeredFrames (Source.imageList frames)) initState :=
      rfl
    rw [hst, hmf, runLoop_offered_none]
    simpa [initState] using offeredFrames_imageList_map_fst frames

/-- C4 witness: stride 20 over 100 frames offers exactly frames
0, 20, 40, 60, 80. -/
theorem c4_frame_stride_witness :
    defaultCfg.maxFrames = none ∧ 0 < 20 ∧
      ((mainRun defaultCfg detNever
          (Source.video (List.replicate 100 frameA) 20)).state.offered.map
            Prod.fst =
        (List.range 100).filter (fun i => i % 20 = 0)) ∧
      (List.range 100).filter (fun i => i % 20 = 0) = [0, 20, 40, 60, 80] :=
  ⟨rfl, by decide, by
    simpa using
      (c4_frame_stride defaultCfg detNever (List.replicate 100 frameA) 20
        rfl (by decide)).1,
    by decide⟩

/-- C5 counterexample: with a 1×1 pattern (both dimensions below 2) the run
does not abort before frame processing — the single frame is read, examined
and even accepted, and the failure eventually reported comes from the solve
step (`InsufficientViews 1`), not an InvalidPatternConfig error. -/
theorem c5_invalid_pattern_counterexample :
    c5cfg.patternSize.1 < 2 ∧ c5cfg.patternSize.2 < 2 ∧
      (mainRun c5cfg (detConst sixCorners)
          (Source.imageList [frameA])).state.offered = [(0, frameA)] ∧
      (mainRun c5cfg (detConst sixCorners)
          (Source.imageList [frameA])).state.used_frames = 1 ∧
      (mainRun c5cfg (detConst sixCorners)
          (Source.imageList [frameA])).solved =
        Except.error (CalibError.insufficientViews 1) :=
  ⟨by decide, by decide, by decide, by decide, rfl⟩

/-- C5 amended: the script validates nothing about the pattern size — no run
ever fails with InvalidPatternConfig, and (without a max-frames cap) every
source frame is read and offered exactly as with a valid pattern. -/
theorem c5_no_pattern_validation (cfg : Config)
    (detect : Frame → DetectionResult) (src : Source) :
    (mainRun cfg detect src).solved ≠
        Except.error CalibError.invalidPatternConfig ∧
      (cfg.maxFrames = none →
        (mainRun cfg detect src).state.offered = offeredFrames src) := by
  constructor
  · have hsolved : (mainRun cfg detect src).solved =
        solve { obj_points := (mainRun cfg detect src).state.obj_points,
                img_points := (mainRun cfg detect src).state.img_points,
                w := (mainRun cfg detect src).state.w,
                h := (mainRun cfg detect src).state.h } := rfl
    rw [hsolved, solve]
    split <;> simp
  · intro hmf
    have hst : (mainRun cfg detect src).state =
        runLoop detect (pattern_points cfg.patternSize.1 cfg.patternSize.2)
          cfg.maxFrames (offeredFrames src) initState := rfl
    rw [hst, hmf, runLoop_offered_none]
    simp [initState]

/-- C5 amended, witness. -/
theorem c5_no_pattern_validation_witness :
    (mainRun c5cfg (detConst sixCorners)
        (Source.imageList [frameA])).solved ≠
        Except.error CalibError.invalidPatternConfig ∧
      (mainRun c5cfg (detConst sixCorners)
          (Source.imageList [frameA])).state.offered =
        offeredFrames (Source.imageList [frameA]) :=
  ⟨(c5_no_pattern_validation c5cfg (detConst sixCorners)
      (Source.imageList [frameA])).1,
   (c5_no_pattern_validation c5cfg (detConst sixCorners)
      (Source.imageList [frameA])).2 rfl⟩

/-- C6: a frame on which detection reports `found = false` leaves the
object-point list, the image-point list and the accepted-view counter
unchanged, and the loop simply continues with the remaining frames. -/
theorem c6_rejection_skips_frame (detect : Frame → DetectionResult)
    (pat : List Point3) (mf : Option Nat) (i : Nat) (f : Frame)
    (rest : List (Nat × Frame)) (st : LoopState)
    (h : (detect f).found = false) :
    runLoop detect pat mf ((i, f) :: rest) st =
        runLoop detect pat mf rest (examine st i f) ∧
      (examine st i f).obj_points = st.obj_points ∧
      (examine st i f).img_points = st.img_points ∧
      (examine st i f).used_frames = st.used_frames :=
  ⟨runLoop_cons_notFound detect pat mf i f rest st h, rfl, rfl, rfl⟩

/-- C6 witness. -/
theorem c6_rejection_skips_frame_witness :
    (detNever frameA).found = false ∧
      (runLoop detNever [] none [(0, frameA)] initState =
          runLoop detNever [] none [] (examine initState 0 frameA) ∧
        (examine initState 0 frameA).obj_points = initState.obj_points ∧
        (examine initState 0 frameA).img_points = initState.img_points ∧
        (examine initState 0 frameA).used_frames = initState.used_frames) :=
  ⟨rfl, c6_rejection_skips_frame detNever [] none 0 frameA [] initState rfl⟩

/-- C7 counterexample: with `max_frames = 0` the loop still accepts one view,
because the threshold is only checked after an accept — so "no more than `m`
views are accepted" fails at `m = 0`. -/
theorem c7_max_frames_counterexample :
    c7cfg.maxFrames = some 0 ∧
      (mainRun c7cfg (detConst sixCorners)
          (Source.imageList [frameA, frameB])).state.used_frames = 1 := by
  constructor
  · rfl
  · decide

/-- C7 amended (threshold `m ≥ 1`): the accepted count never exceeds `m`; the
accept that reaches `m` returns at once, offering no further frame to the
detector; when the threshold is not reached the loop runs the source to
exhaustion; and the solver then runs once over the accumulated set. -/
theorem c7_max_frames_stopping (cfg : Config)
    (detect : Frame → DetectionResult) (src : Source) (m : Nat)
    (hmf : cfg.maxFrames = some m) (hm : 1 ≤ m) :
    (mainRun cfg detect src).state.used_frames ≤ m ∧
      ((mainRun cfg detect src).state.used_frames < m →
        (mainRun cfg detect src).state.offered = offeredFrames src) ∧
      (∀ (i : Nat) (f : Frame) (rest : List (Nat × Frame)) (st : LoopState),
        (detect f).found = true → m ≤ st.used_frames + 1 →
        runLoop detect (pattern_points cfg.patternSize.1 cfg.patternSize.2)
            (some m) ((i, f) :: rest) st =
          acceptView (examine st i f)
            (pattern_points cfg.patternSize.1 cfg.patternSize.2)
            (detect f).corners) ∧
      (mainRun cfg detect src).solved = solve (solverInput cfg detect src) := by
  have hst : (mainRun cfg detect src).state =
      runLoop detect (pattern_points cfg.patternSize.1 cfg.patternSize.2)
        cfg.maxFrames (offeredFrames src) initState := rfl
  refine ⟨?_, ?_, ?_, rfl⟩
  · rw [hst, hmf]
    exact runLoop_used_le detect _ m (offeredFrames src) initState
      (by simpa [initState] using hm)
  · intro hlt
    rw [hst, hmf] at hlt ⊢
    rw [runLoop_offered_all_of_lt detect _ m (offeredFrames src) initState
      hlt]
    simp [initState]
  · intro i f rest st hf hm2
    exact runLoop_cons_found_stop detect _ m i f rest st hf hm2

/-- C7 amended, witness at `max_frames = 1` over two frames: only the first
is offered and accepted. -/
theorem c7_max_frames_stopping_witness :
    c7cfgW.maxFrames = some 1 ∧ 1 ≤ 1 ∧
      ((mainRun c7cfgW (detConst sixCorners)
          (Source.imageList [frameA, frameB])).state.used_frames ≤ 1 ∧
        ((mainRun c7cfgW (detConst sixCorners)
            (Source.imageList [frameA, frameB])).state.used_frames < 1 →
          (mainRun c7cfgW (detConst sixCorners)
              (Source.imageList [frameA, frameB])).state.offered =
            offeredFrames (Source.imageList [frameA, frameB])) ∧
        (∀ (i : Nat) (f : Frame) (rest : List (Nat × Frame))
            (st : LoopState),
          (detConst sixCorners f).found = true → 1 ≤ st.used_frames + 1 →
          runLoop (detConst sixCorners)
              (pattern_points c7cfgW.patternSize.1 c7cfgW.patternSize.2)
              (some 1) ((i, f) :: rest) st =
            acceptView (examine st i f)
              (pattern_points c7cfgW.patternSize.1 c7cfgW.patternSize.2)
              (detConst sixCorners f).corners) ∧
        (mainRun c7cfgW (detConst sixCorners)
            (Source.imageList [frameA, frameB])).solved =
          solve (solverInput c7cfgW (detConst sixCorners)
            (Source.imageList [frameA, frameB]))) :=
  ⟨rfl, by decide,
   c7_max_frames_stopping c7cfgW (detConst sixCorners)
     (Source.imageList [frameA, frameB]) 1 rfl (by decide)⟩

/-- C8: with a corners cache configured, the written file holds, in order,
the image-point sequences, the object-point sequences, then the `(w, h)`
pair; and the set handed to the solver (and the solve outcome) is identical
to that of the same run without the cache. -/
theorem c8_corners_cache (cfg : Config) (detect : Frame → DetectionResult)
    (src : Source) (hc : cfg.cornersF = true) :
    (mainRun cfg detect src).cornersFile =
        some [Pickled.imgPts (mainRun cfg detect src).state.img_points,
              Pickled.objPts (mainRun cfg detect src).state.obj_points,
              Pickled.size ((mainRun cfg detect src).state.w,
                            (mainRun cfg detect src).state.h)] ∧
      solverInput cfg detect src =
        solverInput { cfg with cornersF := false } detect src ∧
      (mainRun cfg detect src).solved =
        (mainRun { cfg with cornersF := false } detect src).solved := by
  refine ⟨?_, rfl, rfl⟩
  have hfile : (mainRun cfg detect src).cornersFile =
      if cfg.cornersF then some (dumpCorners (mainRun cfg detect src).state)
      else none := rfl
  rw [hfile, hc]
  simp [dumpCorners]

/-- C8 witness. -/
theorem c8_corners_cache_witness :
    c8cfg.cornersF = true ∧
      ((mainRun c8cfg detNever (Source.imageList [frameA])).cornersFile =
          some [Pickled.imgPts
                  (mainRun c8cfg detNever
                    (Source.imageList [frameA])).state.img_points,
                Pickled.objPts
                  (mainRun c8cfg detNever
                    (Source.imageList [frameA])).state.obj_points,
                Pickled.size
                  ((mainRun c8cfg detNever
                      (Source.imageList [frameA])).state.w,
                   (mainRun c8cfg detNever
                      (Source.imageList [frameA])).state.h)] ∧
        solverInput c8cfg detNever (Source.imageList [frameA]) =
          solverInput { c8cfg with cornersF := false } detNever
            (Source.imageList [frameA]) ∧
        (mainRun c8cfg detNever (Source.imageList [frameA])).solved =
          (mainRun { c8cfg with cornersF := false } detNever
            (Source.imageList [frameA])).solved) :=
  ⟨rfl, c8_corners_cache c8cfg detNever (Source.imageList [frameA]) rfl⟩

/-- C9: when the detector returns `cols * rows` corners on success, the loop
invariant holds initially, is preserved by the loop from any state, the
fixed pattern has length `cols * rows`, and it holds of every run's final
state: both accumulator lists have length `used_frames`, every object entry
is the fixed pattern and every image entry has length `cols * rows`. -/
theorem c9_accumulator_lockstep (cfg : Config)
    (detect : Frame → DetectionResult) (cols rows : Nat)
    (hps : cfg.patternSize = (cols, rows))
    (hdet : ∀ f, (detect f).found = true →
      (detect f).corners.length = cols * rows) :
    LoopInv (pattern_points cols rows) (cols * rows) initState ∧
      (∀ (pairs : List (Nat × Frame)) (st : LoopState),
        LoopInv (pattern_points cols rows) (cols * rows) st →
        LoopInv (pattern_points cols rows) (cols * rows)
          (runLoop detect (pattern_points cols rows) cfg.maxFrames pairs
            st)) ∧
      (pattern_points cols rows).length = cols * rows ∧
      (∀ src : Source,
        LoopInv (pattern_points cols rows) (cols * rows)
          (mainRun cfg detect src).state) := by
  obtain ⟨ps, mf, cf⟩ := cfg
  simp only at hps
  subst hps
  refine ⟨loopInv_initState _ _, ?_, pattern_points_length cols rows, ?_⟩
  · intro pairs st h
    exact runLoop_inv detect _ _ mf hdet pairs st h
  · intro src
    exact runLoop_inv detect _ _ mf hdet (offeredFrames src) initState
      (loopInv_initState _ _)

/-- C9 witness: a 3×2 pattern with a six-corner detector. -/
theorem c9_accumulator_lockstep_witness :
    c9cfg.patternSize = (3, 2) ∧
      (∀ f, (detConst sixCorners f).found = true →
        (detConst sixCorners f).corners.length = 3 * 2) ∧
      (LoopInv (pattern_points 3 2) (3 * 2) initState ∧
        (∀ (pairs : List (Nat × Frame)) (st : LoopState),
          LoopInv (pattern_points 3 2) (3 * 2) st →
          LoopInv (pattern_points 3 2) (3 * 2)
            (runLoop (detConst sixCorners) (pattern_points 3 2)
              c9cfg.maxFrames pairs st)) ∧
        (pattern_points 3 2).length = 3 * 2 ∧
        (∀ src : Source,
          LoopInv (pattern_points 3 2) (3 * 2)
            (mainRun c9cfg (detConst sixCorners) src).state)) :=
  ⟨rfl, fun f _ => rfl,
   c9_accumulator_lockstep c9cfg (detConst sixCorners) 3 2 rfl
     (fun f _ => rfl)⟩

/-- C10: the `(w, h)` handed to the solver is the recorded loop state's, which
is the dimensions of the last frame offered to the detector — detection
failures included — and `(0, 0)` when no frame was ever examined. -/
theorem c10_solver_dimensions (cfg : Config)
    (detect : Frame → DetectionResult) (src : Source) :
    (solverInput cfg detect src).w = (mainRun cfg detect src).state.w ∧
      (solverInput cfg detect src).h = (mainRun cfg detect src).state.h ∧
      (((mainRun cfg detect src).state.offered = [] ∧
          (mainRun cfg detect src).state.w = 0 ∧
          (mainRun cfg detect src).state.h = 0) ∨
        (∃ p, (mainRun cfg detect src).state.offered.getLast? = some p ∧
          (mainRun cfg detect src).state.w = p.2.width ∧
          (mainRun cfg detect src).state.h = p.2.height)) := by
  refine ⟨rfl, rfl, ?_⟩
  have hst : (mainRun cfg detect src).state =
      runLoop detect (pattern_points cfg.patternSize.1 cfg.patternSize.2)
        cfg.maxFrames (offeredFrames src) initState := rfl
  rw [hst]
  rcases runLoop_wh detect
      (pattern_points cfg.patternSize.1 cfg.patternSize.2) cfg.maxFrames
      (offeredFrames src) initState with ⟨hw, hh, ho⟩ | h
  · left
    refine ⟨?_, ?_, ?_⟩
    · simpa [initState] using ho
    · simpa [initState] using hw
    · simpa [initState] using hh
  · right
    exact h

end Video2Calibration
